import Mathlib

/-!
Verification of the linkedin-analytics-airflow pipeline's core decision logic.

Each definition below is a shallow embedding of a function, SQL query, or
inline decision from the repository's source (file and function named in the
doc comment).  Strings model SQL TEXT columns; `Option String` models nullable
columns and Python `None`/pandas `NaN`; `Int` models timestamps and counters.
-/

/-- Python truthiness of a nullable string: `pd.notnull(x) and x` — the value
is present and not the empty string. -/
def isFilled : Option String → Bool
  | none => false
  | some s => s ≠ ""

/-- ASCII lower-casing of one character (models `str.lower` on URL text). -/
def lowerChar (c : Char) : Char :=
  if c.toNat ≥ 65 && c.toNat ≤ 90 then Char.ofNat (c.toNat + 32) else c

/-- Drop leading whitespace characters (models one side of `str.strip`). -/
def dropLeadWS : List Char → List Char
  | [] => []
  | c :: t => if c == ' ' || c == '\t' || c == '\n' || c == '\r' then dropLeadWS t else c :: t

/-- `str.strip().lower()` from `sync_sql_to_hubspot.py` /
`enrich_hubspot_contacts.py`: the identity-key normalisation applied to
profile URLs before comparing local and remote contacts. -/
def normalize_url (s : String) : String :=
  String.mk (((dropLeadWS (dropLeadWS s.data.reverse).reverse)).map lowerChar)

/-- Does `pat` occur at the head of `l`? -/
def leadsWith : List Char → List Char → Bool
  | [], _ => true
  | _ :: _, [] => false
  | a :: as, b :: bs => a == b && leadsWith as bs

/-- Substring test on character lists. -/
def hasSubAux (pat : List Char) : List Char → Bool
  | [] => pat.isEmpty
  | c :: t => leadsWith pat (c :: t) || hasSubAux pat t

/-- `url.str.contains('/in/')` from `sql_hs.py` / `sync_sql_to_hubspot.py`:
the structural filter keeping only person-profile URLs. -/
def containsInSegment (s : String) : Bool :=
  hasSubAux "/in/".data s.data

/-! ## Scrape Scheduler Query (`include/scrape.py`, `main`, lines 39–57) -/

/-- One row of the `linkedin_posts` table, restricted to the columns the
scheduler query reads.  `last_scraped_at` is a nullable timestamp (here: an
integer number of days); `scrape_count` is an INTEGER column. -/
structure PostRow where
  id : Nat
  post_url : String
  scrape_count : Int
  last_scraped_at : Option Int
  deriving DecidableEq, Repr

/-- The WHERE clause of the scheduler query in `scrape.py`:
`scrape_count < 5 AND (last_scraped_at IS NULL OR last_scraped_at < NOW() - INTERVAL '2 days')`.
Timestamps are in days, so the cooldown bound is `now - 2`. -/
def dueForScrape (now : Int) (p : PostRow) : Bool :=
  decide (p.scrape_count < 5) &&
    (match p.last_scraped_at with
     | none => true
     | some t => decide (t < now - 2))

/-- Insert into a list sorted by `le` (used to model the SQL ORDER BY). -/
def insertLe (le : α → α → Bool) (a : α) : List α → List α
  | [] => [a]
  | b :: t => if le a b then a :: b :: t else b :: insertLe le a t

/-- Insertion sort by `le` (models the SQL ORDER BY; ties cannot occur since
`id` is a primary key). -/
def sortByLe (le : α → α → Bool) : List α → List α
  | [] => []
  | a :: t => insertLe le a (sortByLe le t)

/-- The ORDER BY of the scheduler query:
`CASE WHEN last_scraped_at IS NULL THEN 0 ELSE 1 END, id DESC`. -/
def scrapeOrder (p q : PostRow) : Bool :=
  let rp : Nat := if p.last_scraped_at.isNone then 0 else 1
  let rq : Nat := if q.last_scraped_at.isNone then 0 else 1
  decide (rp < rq) || (rp == rq && decide (q.id ≤ p.id))

/-- The scheduler query of `scrape.py`: filter by `dueForScrape`, order by
`scrapeOrder`, `LIMIT 5`, and project `post_url`. -/
def postsToScrape (now : Int) (posts : List PostRow) : List String :=
  ((sortByLe scrapeOrder (posts.filter (dueForScrape now))).take 5).map (·.post_url)

theorem mem_insertLe {le : α → α → Bool} {a x : α} {l : List α} :
    x ∈ insertLe le a l ↔ x = a ∨ x ∈ l := by
  induction l with
  | nil => simp [insertLe]
  | cons b t ih =>
    simp only [insertLe]
    by_cases h : le a b = true
    · simp [h]
    · simp only [Bool.not_eq_true] at h
      simp [h, ih]
      tauto

theorem mem_sortByLe {le : α → α → Bool} {x : α} {l : List α} :
    x ∈ sortByLe le l ↔ x ∈ l := by
  induction l with
  | nil => simp [sortByLe]
  | cons a t ih =>
    simp [sortByLe, mem_insertLe, ih]

theorem length_insertLe {le : α → α → Bool} {a : α} {l : List α} :
    (insertLe le a l).length = l.length + 1 := by
  induction l with
  | nil => rfl
  | cons b t ih =>
    simp only [insertLe]
    by_cases h : le a b = true
    · simp [h]
    · simp only [Bool.not_eq_true] at h
      simp [h, ih]

theorem length_sortByLe {le : α → α → Bool} {l : List α} :
    (sortByLe le l).length = l.length := by
  induction l with
  | nil => rfl
  | cons a t ih => simp [sortByLe, length_insertLe, ih]

/-- C4 counterexample helper: six posts, all never scraped, ids 1..6. -/
def sixEligiblePosts : List PostRow :=
  [⟨1, "u1", 0, none⟩, ⟨2, "u2", 0, none⟩, ⟨3, "u3", 0, none⟩,
   ⟨4, "u4", 0, none⟩, ⟨5, "u5", 0, none⟩, ⟨6, "u6", 0, none⟩]

/-- C4: the claim as stated is false: with six eligible posts, post `u1`
satisfies the selection predicate yet is not returned (the query has
`LIMIT 5` and `u1` sorts last under `id DESC`). -/
theorem scheduler_iff_counterexample :
    (∃ p ∈ sixEligiblePosts, p.post_url = "u1" ∧ dueForScrape 100 p = true) ∧
      "u1" ∉ postsToScrape 100 sixEligiblePosts := by
  constructor
  · exact ⟨⟨1, "u1", 0, none⟩, by decide, rfl, by decide⟩
  · decide

/-- C4 (amended): the scheduler query returns only posts satisfying the
selection predicate (so a post within the 2-day cooldown, or at/above the
maximum of 5 scrapes, is never returned), and whenever at most 5 posts are
eligible, a URL is returned iff some post with that URL satisfies the
predicate. -/
theorem scheduler_query_spec (now : Int) (posts : List PostRow) :
    (∀ u, u ∈ postsToScrape now posts →
        ∃ p ∈ posts, p.post_url = u ∧ dueForScrape now p = true) ∧
    ((posts.filter (dueForScrape now)).length ≤ 5 →
      ∀ u, u ∈ postsToScrape now posts ↔
        ∃ p ∈ posts, p.post_url = u ∧ dueForScrape now p = true) := by
  constructor
  · intro u hu
    simp only [postsToScrape, List.mem_map] at hu
    obtain ⟨p, hp, hpu⟩ := hu
    have hp' : p ∈ sortByLe scrapeOrder (posts.filter (dueForScrape now)) :=
      List.mem_of_mem_take hp
    rw [mem_sortByLe] at hp'
    rw [List.mem_filter] at hp'
    exact ⟨p, hp'.1, hpu, hp'.2⟩
  · intro hlen u
    have htake : (sortByLe scrapeOrder (posts.filter (dueForScrape now))).take 5 =
        sortByLe scrapeOrder (posts.filter (dueForScrape now)) := by
      apply List.take_of_length_le
      rw [length_sortByLe]
      exact hlen
    constructor
    · intro hu
      simp only [postsToScrape, List.mem_map] at hu
      obtain ⟨p, hp, hpu⟩ := hu
      have hp' : p ∈ sortByLe scrapeOrder (posts.filter (dueForScrape now)) :=
        List.mem_of_mem_take hp
      rw [mem_sortByLe] at hp'
      rw [List.mem_filter] at hp'
      exact ⟨p, hp'.1, hpu, hp'.2⟩
    · rintro ⟨p, hp, hpu, hdue⟩
      simp only [postsToScrape, htake, List.mem_map]
      refine ⟨p, ?_, hpu⟩
      rw [mem_sortByLe, List.mem_filter]
      exact ⟨hp, hdue⟩

/-- C4 witness: with a single eligible post the amended equivalence holds
concretely: the post is due and its URL is returned. -/
theorem scheduler_query_spec_witness :
    ("p" ∈ postsToScrape 10 [⟨1, "p", 0, none⟩] ↔
      ∃ q ∈ [(⟨1, "p", 0, none⟩ : PostRow)], q.post_url = "p" ∧ dueForScrape 10 q = true) ∧
    ([(⟨1, "p", 0, none⟩ : PostRow)].filter (dueForScrape 10)).length ≤ 5 :=
  ⟨(scheduler_query_spec 10 [⟨1, "p", 0, none⟩]).2 (by decide) "p", by decide⟩

/-! ## Engagement Ingestion (`include/utils.py`, `ingest_scrape`, lines 162–252) -/

/-- One flattened reaction record from `scrape_post_engagers`: the columns
`ingest_scrape` reads (`metadata_post_url` and `metadata_total_reactions` are
identical on all rows of one scrape result). -/
structure Reaction where
  reactor_profile_url : String
  reaction_type : String
  reactor_name : String
  reactor_headline : String
  metadata_post_url : String
  metadata_total_reactions : Int
  deriving DecidableEq, Repr

/-- One row of `linkedin_posts` as touched by ingestion.  `scrape_count` is
nullable: the code reads it as `result['scrape_count'] or 0`. -/
structure IPostRow where
  post_url : String
  last_scraped_at : Option Int
  scrape_count : Option Int
  total_reactions : Int
  deriving DecidableEq, Repr

/-- One row of `linkedin_posts_scrapes` (the append-only scrape-event table). -/
structure ScrapeRow where
  id : Nat
  post_url : String
  ran_at : Int
  reactions_count : Int
  cost : Int
  status : String
  deriving DecidableEq, Repr

/-- One row of `linkedin_engagers`, unique on `(linkedin_url, post_url)`. -/
structure EngagerRow where
  scrape_id : Nat
  linkedin_url : String
  name : String
  headline : String
  engagement_type : String
  post_url : String
  deriving DecidableEq, Repr

/-- The record store: the three tables ingestion touches, plus the SERIAL
counter that generates scrape-event ids. -/
structure Store where
  posts : List IPostRow
  scrapes : List ScrapeRow
  engagers : List EngagerRow
  nextScrapeId : Nat
  deriving DecidableEq, Repr

/-- `SELECT scrape_count FROM linkedin_posts WHERE post_url = %s` (first row). -/
def find_post (db : Store) (url : String) : Option IPostRow :=
  db.posts.find? (fun p => p.post_url == url)

/-- The post upsert of `ingest_scrape`: INSERT with `scrape_count = 1` when the
post is absent, otherwise UPDATE with the previously read count plus one
(NULL read as 0), overwriting `last_scraped_at` and `total_reactions`. -/
def upsert_post (db : Store) (url : String) (ran_at tr : Int) : Store :=
  match find_post db url with
  | none => { db with posts := db.posts ++ [⟨url, some ran_at, some 1, tr⟩] }
  | some p =>
    { db with posts := db.posts.map (fun q =>
        if q.post_url == url then
          { q with last_scraped_at := some ran_at,
                   scrape_count := some (p.scrape_count.getD 0 + 1),
                   total_reactions := tr }
        else q) }

/-- `INSERT INTO linkedin_posts_scrapes ... VALUES (%s, %s, %s, 0, 'success')
RETURNING id`. -/
def insert_scrape_event (db : Store) (url : String) (ran_at tr : Int) : Store × Nat :=
  ({ db with scrapes := db.scrapes ++ [⟨db.nextScrapeId, url, ran_at, tr, 0, "success"⟩],
             nextScrapeId := db.nextScrapeId + 1 },
   db.nextScrapeId)

/-- Is an engager with this `(linkedin_url, post_url)` key already present?
(the conflict test behind `ON CONFLICT (linkedin_url, post_url) DO NOTHING`). -/
def keyPresent (es : List EngagerRow) (lu pu : String) : Bool :=
  es.any (fun e => e.linkedin_url == lu && e.post_url == pu)

/-- `INSERT INTO linkedin_engagers ... ON CONFLICT (linkedin_url, post_url)
DO NOTHING` for one reaction record. -/
def insert_engager (sid : Nat) (purl : String) (db : Store) (r : Reaction) : Store :=
  if keyPresent db.engagers r.reactor_profile_url purl then db
  else { db with engagers := db.engagers ++
          [⟨sid, r.reactor_profile_url, r.reactor_name, r.reactor_headline,
            r.reaction_type, purl⟩] }

/-- The body of `ingest_scrape` on a non-empty scrape result: metadata comes
from the first row (`df.iloc[0]`), then post upsert, one scrape-event insert,
and one conflict-ignoring engager insert per reaction row. -/
def ingest_scrape_ne (db : Store) (ran_at : Int) (r0 : Reaction) (rest : List Reaction) : Store :=
  let purl := r0.metadata_post_url
  let tr := r0.metadata_total_reactions
  let db1 := upsert_post db purl ran_at tr
  let p := insert_scrape_event db1 purl ran_at tr
  (r0 :: rest).foldl (insert_engager p.2 purl) p.1

/-- `ingest_scrape`: on an empty DataFrame `df.iloc[0]` raises (modelled as
`none`); otherwise the non-empty body runs. -/
def ingest_scrape (db : Store) (ran_at : Int) (rows : List Reaction) : Option Store :=
  match rows with
  | [] => none
  | r0 :: rest => some (ingest_scrape_ne db ran_at r0 rest)

theorem insert_engager_posts (sid : Nat) (purl : String) (db : Store) (r : Reaction) :
    (insert_engager sid purl db r).posts = db.posts := by
  unfold insert_engager
  split <;> rfl

theorem insert_engager_scrapes (sid : Nat) (purl : String) (db : Store) (r : Reaction) :
    (insert_engager sid purl db r).scrapes = db.scrapes := by
  unfold insert_engager
  split <;> rfl

theorem fold_insert_engager_posts (sid : Nat) (purl : String) (rows : List Reaction)
    (db : Store) : (rows.foldl (insert_engager sid purl) db).posts = db.posts := by
  induction rows generalizing db with
  | nil => rfl
  | cons r t ih => rw [List.foldl_cons, ih, insert_engager_posts]

theorem fold_insert_engager_scrapes (sid : Nat) (purl : String) (rows : List Reaction)
    (db : Store) : (rows.foldl (insert_engager sid purl) db).scrapes = db.scrapes := by
  induction rows generalizing db with
  | nil => rfl
  | cons r t ih => rw [List.foldl_cons, ih, insert_engager_scrapes]

theorem find_post_map_update (l : List IPostRow) (url : String) (f : IPostRow → IPostRow)
    (hf : ∀ p, (f p).post_url = p.post_url) :
    (l.map f).find? (fun p => p.post_url == url) =
      (l.find? (fun p => p.post_url == url)).map f := by
  induction l with
  | nil => rfl
  | cons p t ih =>
    simp only [List.map_cons, List.find?]
    rw [hf p]
    by_cases h : (p.post_url == url) = true
    · simp [h]
    · simp only [Bool.not_eq_true] at h
      simp [h, ih]

theorem upsert_post_scrapes (db : Store) (url : String) (t tr : Int) :
    (upsert_post db url t tr).scrapes = db.scrapes := by
  unfold upsert_post
  split <;> rfl

theorem upsert_post_nextScrapeId (db : Store) (url : String) (t tr : Int) :
    (upsert_post db url t tr).nextScrapeId = db.nextScrapeId := by
  unfold upsert_post
  split <;> rfl

theorem upsert_post_engagers (db : Store) (url : String) (t tr : Int) :
    (upsert_post db url t tr).engagers = db.engagers := by
  unfold upsert_post
  split <;> rfl

theorem ingest_ne_posts (db : Store) (t : Int) (r0 : Reaction) (rest : List Reaction) :
    (ingest_scrape_ne db t r0 rest).posts =
      (upsert_post db r0.metadata_post_url t r0.metadata_total_reactions).posts := by
  unfold ingest_scrape_ne
  rw [fold_insert_engager_posts]
  rfl

theorem ingest_ne_scrapes (db : Store) (t : Int) (r0 : Reaction) (rest : List Reaction) :
    (ingest_scrape_ne db t r0 rest).scrapes =
      db.scrapes ++ [⟨db.nextScrapeId, r0.metadata_post_url, t,
        r0.metadata_total_reactions, 0, "success"⟩] := by
  unfold ingest_scrape_ne
  rw [fold_insert_engager_scrapes]
  show (upsert_post db _ t _).scrapes ++ _ = _
  rw [upsert_post_scrapes, upsert_post_nextScrapeId]

theorem upsert_post_find_some (db : Store) (url : String) (t tr : Int) (p : IPostRow)
    (hp : find_post db url = some p) :
    find_post (upsert_post db url t tr) url =
      some { p with last_scraped_at := some t,
                    scrape_count := some (p.scrape_count.getD 0 + 1),
                    total_reactions := tr } := by
  have hp' : db.posts.find? (fun q => q.post_url == url) = some p := hp
  have hpu : (p.post_url == url) = true := by
    have h2 := List.find?_some hp'
    simpa using h2
  unfold upsert_post
  rw [hp]
  show (db.posts.map _).find? _ = _
  rw [find_post_map_update db.posts url _ (by intro q; split <;> rfl)]
  rw [hp', Option.map_some']
  simp [hpu]

/-- C5: on a non-empty scrape result, ingestion creates the post with
`scrape_count = 1` when absent, otherwise bumps the first matching row's
`scrape_count` by exactly one (NULL read as 0) and overwrites
`last_scraped_at` and `total_reactions`; and it appends exactly one scrape
event for the run, whatever the number of reaction rows. -/
theorem ingest_scrape_upsert_spec (db : Store) (t : Int) (r0 : Reaction)
    (rest : List Reaction) :
    ingest_scrape db t (r0 :: rest) = some (ingest_scrape_ne db t r0 rest) ∧
    (ingest_scrape_ne db t r0 rest).scrapes =
      db.scrapes ++ [⟨db.nextScrapeId, r0.metadata_post_url, t,
        r0.metadata_total_reactions, 0, "success"⟩] ∧
    (find_post db r0.metadata_post_url = none →
      (ingest_scrape_ne db t r0 rest).posts =
        db.posts ++ [⟨r0.metadata_post_url, some t, some 1, r0.metadata_total_reactions⟩]) ∧
    (∀ p, find_post db r0.metadata_post_url = some p →
      find_post (ingest_scrape_ne db t r0 rest) r0.metadata_post_url =
        some { p with last_scraped_at := some t,
                      scrape_count := some (p.scrape_count.getD 0 + 1),
                      total_reactions := r0.metadata_total_reactions }) := by
  refine ⟨rfl, ingest_ne_scrapes db t r0 rest, ?_, ?_⟩
  · intro h
    rw [ingest_ne_posts]
    unfold upsert_post
    rw [h]
  · intro p hp
    show (ingest_scrape_ne db t r0 rest).posts.find? _ = _
    rw [ingest_ne_posts]
    exact upsert_post_find_some db _ t _ p hp

/-- C5 witness: ingesting one reaction for an absent post yields the post row
with `scrape_count = 1` and exactly one scrape event. -/
theorem ingest_scrape_upsert_spec_witness :
    find_post ⟨[], [], [], 0⟩ "post1" = none ∧
      (ingest_scrape_ne ⟨[], [], [], 0⟩ 7 ⟨"prof1", "LIKE", "A B", "h", "post1", 3⟩ []).posts =
        [] ++ [⟨"post1", some 7, some 1, 3⟩] :=
  ⟨rfl, (ingest_scrape_upsert_spec ⟨[], [], [], 0⟩ 7 ⟨"prof1", "LIKE", "A B", "h", "post1", 3⟩
    []).2.2.1 rfl⟩

theorem keyPresent_insert_engager_mono (sid : Nat) (purl : String) (db : Store)
    (r : Reaction) {lu pu : String} (h : keyPresent db.engagers lu pu = true) :
    keyPresent (insert_engager sid purl db r).engagers lu pu = true := by
  unfold insert_engager
  split
  · exact h
  · show keyPresent (db.engagers ++ _) lu pu = true
    unfold keyPresent at h ⊢
    rw [List.any_append, h, Bool.true_or]

theorem keyPresent_insert_engager_self (sid : Nat) (purl : String) (db : Store)
    (r : Reaction) :
    keyPresent (insert_engager sid purl db r).engagers r.reactor_profile_url purl = true := by
  unfold insert_engager
  split
  · assumption
  · show keyPresent (db.engagers ++ _) _ _ = true
    unfold keyPresent
    rw [List.any_append]
    simp

theorem fold_keyPresent_mono (sid : Nat) (purl : String) (rows : List Reaction)
    (db : Store) {lu pu : String} (h : keyPresent db.engagers lu pu = true) :
    keyPresent ((rows.foldl (insert_engager sid purl) db).engagers) lu pu = true := by
  induction rows generalizing db with
  | nil => exact h
  | cons a t ih =>
    rw [List.foldl_cons]
    exact ih _ (keyPresent_insert_engager_mono sid purl db a h)

theorem fold_keyPresent_self (sid : Nat) (purl : String) (rows : List Reaction)
    (db : Store) :
    ∀ r ∈ rows,
      keyPresent ((rows.foldl (insert_engager sid purl) db).engagers)
        r.reactor_profile_url purl = true := by
  induction rows generalizing db with
  | nil => intro r hr; cases hr
  | cons a t ih =>
    intro r hr
    rw [List.foldl_cons]
    rcases List.mem_cons.mp hr with rfl | hr
    · exact fold_keyPresent_mono sid purl t _ (keyPresent_insert_engager_self sid purl db r)
    · exact ih _ r hr

theorem fold_insert_engager_noop (sid : Nat) (purl : String) (rows : List Reaction)
    (db : Store) (h : ∀ r ∈ rows, keyPresent db.engagers r.reactor_profile_url purl = true) :
    rows.foldl (insert_engager sid purl) db = db := by
  induction rows with
  | nil => rfl
  | cons a t ih =>
    rw [List.foldl_cons]
    have ha : insert_engager sid purl db a = db := by
      unfold insert_engager
      rw [h a (List.mem_cons_self a t)]
      rfl
    rw [ha]
    exact ih (fun r hr => h r (List.mem_cons_of_mem a hr))

theorem ingest_ne_engagers_noop (db : Store) (t : Int) (r0 : Reaction) (rest : List Reaction)
    (h : ∀ r ∈ (r0 :: rest),
      keyPresent db.engagers r.reactor_profile_url r0.metadata_post_url = true) :
    (ingest_scrape_ne db t r0 rest).engagers = db.engagers := by
  unfold ingest_scrape_ne
  have he : ((insert_scrape_event
        (upsert_post db r0.metadata_post_url t r0.metadata_total_reactions)
        r0.metadata_post_url t r0.metadata_total_reactions).1).engagers = db.engagers := by
    show (upsert_post db r0.metadata_post_url t r0.metadata_total_reactions).engagers
      = db.engagers
    exact upsert_post_engagers db _ t _
  rw [fold_insert_engager_noop _ _ _ _ (by rw [he]; exact h), he]

theorem ingest_ne_keyPresent (db : Store) (t : Int) (r0 : Reaction) (rest : List Reaction) :
    ∀ r ∈ (r0 :: rest),
      keyPresent (ingest_scrape_ne db t r0 rest).engagers
        r.reactor_profile_url r0.metadata_post_url = true := by
  intro r hr
  unfold ingest_scrape_ne
  exact fold_keyPresent_self _ _ _ _ r hr

theorem countP_insert_engager (sid : Nat) (purl : String) (db : Store) (r : Reaction)
    (lu pu : String) :
    (insert_engager sid purl db r).engagers.countP
        (fun e => e.linkedin_url == lu && e.post_url == pu) ≤
      max (db.engagers.countP (fun e => e.linkedin_url == lu && e.post_url == pu)) 1 := by
  by_cases h : keyPresent db.engagers r.reactor_profile_url purl = true
  · unfold insert_engager
    rw [h]
    exact Nat.le_max_left _ _
  · rw [Bool.not_eq_true] at h
    unfold insert_engager
    rw [h]
    show ((db.engagers ++ _).countP _) ≤ _
    rw [List.countP_append]
    by_cases hrow : ((r.reactor_profile_url == lu) && (purl == pu)) = true
    · have hc0 : db.engagers.countP (fun e => e.linkedin_url == lu && e.post_url == pu) = 0 := by
        rw [Bool.and_eq_true] at hrow
        have hlu : r.reactor_profile_url = lu := by
          have := hrow.1; exact eq_of_beq this
        have hpu : purl = pu := by
          have := hrow.2; exact eq_of_beq this
        rw [List.countP_eq_zero]
        intro e he hme
        have : keyPresent db.engagers r.reactor_profile_url purl = true := by
          unfold keyPresent
          rw [List.any_eq_true]
          refine ⟨e, he, ?_⟩
          rw [hlu, hpu]
          exact hme
        rw [h] at this
        cases this
      rw [hc0]
      have h1 : (List.countP (fun e => e.linkedin_url == lu && e.post_url == pu) ([⟨sid,
          r.reactor_profile_url, r.reactor_name, r.reactor_headline, r.reaction_type,
          purl⟩] : List EngagerRow)) ≤ 1 := by
        rw [List.countP_cons, List.countP_nil]
        split <;> omega
      simpa using h1
    · rw [Bool.not_eq_true] at hrow
      have hc1 : (List.countP (fun e => e.linkedin_url == lu && e.post_url == pu) ([⟨sid,
          r.reactor_profile_url, r.reactor_name, r.reactor_headline, r.reaction_type,
          purl⟩] : List EngagerRow)) = 0 := by
        rw [List.countP_eq_zero]
        intro e he
        rw [List.mem_singleton] at he
        subst he
        simp only [Bool.not_eq_true]
        exact hrow
      rw [hc1, Nat.add_zero]
      exact Nat.le_max_left _ _

theorem countP_fold_insert_engager (sid : Nat) (purl : String) (rows : List Reaction)
    (db : Store) (lu pu : String) :
    ((rows.foldl (insert_engager sid purl) db).engagers).countP
        (fun e => e.linkedin_url == lu && e.post_url == pu) ≤
      max (db.engagers.countP (fun e => e.linkedin_url == lu && e.post_url == pu)) 1 := by
  induction rows generalizing db with
  | nil => exact Nat.le_max_left _ _
  | cons a t ih =>
    rw [List.foldl_cons]
    refine Nat.le_trans (ih (insert_engager sid purl db a)) ?_
    refine Nat.max_le.mpr ⟨?_, ?_⟩
    · exact Nat.le_trans (countP_insert_engager sid purl db a lu pu)
        (Nat.max_le.mpr ⟨Nat.le_max_left _ _, Nat.le_max_right _ _⟩)
    · exact Nat.le_max_right _ _

/-- C6: ingesting the same scrape result twice leaves the engager table of the
second run identical to that of the first while the post's `scrape_count` is
bumped once more (once per invocation); and within a single ingestion no
`(profile URL, post URL)` key ever gains more than one row, however often it
repeats in the input. -/
theorem ingest_scrape_idempotent (db : Store) (t t2 : Int) (r0 : Reaction)
    (rest : List Reaction) :
    (ingest_scrape_ne (ingest_scrape_ne db t r0 rest) t2 r0 rest).engagers =
      (ingest_scrape_ne db t r0 rest).engagers ∧
    (∀ p, find_post (ingest_scrape_ne db t r0 rest) r0.metadata_post_url = some p →
      find_post (ingest_scrape_ne (ingest_scrape_ne db t r0 rest) t2 r0 rest)
          r0.metadata_post_url =
        some { p with last_scraped_at := some t2,
                      scrape_count := some (p.scrape_count.getD 0 + 1),
                      total_reactions := r0.metadata_total_reactions }) ∧
    (∀ lu pu : String,
      (ingest_scrape_ne db t r0 rest).engagers.countP
          (fun e => e.linkedin_url == lu && e.post_url == pu) ≤
        max (db.engagers.countP (fun e => e.linkedin_url == lu && e.post_url == pu)) 1) := by
  refine ⟨?_, ?_, ?_⟩
  · exact ingest_ne_engagers_noop _ t2 r0 rest (ingest_ne_keyPresent db t r0 rest)
  · intro p hp
    show (ingest_scrape_ne _ t2 r0 rest).posts.find? _ = _
    rw [ingest_ne_posts]
    exact upsert_post_find_some _ _ t2 _ p hp
  · intro lu pu
    have he : ((insert_scrape_event
          (upsert_post db r0.metadata_post_url t r0.metadata_total_reactions)
          r0.metadata_post_url t r0.metadata_total_reactions).1).engagers = db.engagers := by
      show (upsert_post db r0.metadata_post_url t r0.metadata_total_reactions).engagers
        = db.engagers
      exact upsert_post_engagers db _ t _
    unfold ingest_scrape_ne
    refine Nat.le_trans (countP_fold_insert_engager _ _ _ _ lu pu) ?_
    rw [he]

/-- C6 witness: a scrape result that lists the same profile twice yields a
single engager row, and re-ingesting it adds none. -/
theorem ingest_scrape_idempotent_witness :
    (ingest_scrape_ne
        (ingest_scrape_ne ⟨[], [], [], 0⟩ 1 ⟨"pr", "LIKE", "n", "h", "post", 2⟩
          [⟨"pr", "LOVE", "n", "h", "post", 2⟩])
        2 ⟨"pr", "LIKE", "n", "h", "post", 2⟩
        [⟨"pr", "LOVE", "n", "h", "post", 2⟩]).engagers =
      (ingest_scrape_ne ⟨[], [], [], 0⟩ 1 ⟨"pr", "LIKE", "n", "h", "post", 2⟩
        [⟨"pr", "LOVE", "n", "h", "post", 2⟩]).engagers ∧
    (ingest_scrape_ne ⟨[], [], [], 0⟩ 1 ⟨"pr", "LIKE", "n", "h", "post", 2⟩
        [⟨"pr", "LOVE", "n", "h", "post", 2⟩]).engagers.countP
        (fun e => e.linkedin_url == "pr" && e.post_url == "post") ≤
      max (([] : List EngagerRow).countP
        (fun e => e.linkedin_url == "pr" && e.post_url == "post")) 1 ∧
    find_post (ingest_scrape_ne ⟨[], [], [], 0⟩ 1 ⟨"pr", "LIKE", "n", "h", "post", 2⟩
        [⟨"pr", "LOVE", "n", "h", "post", 2⟩]) "post" = some ⟨"post", some 1, some 1, 2⟩ ∧
    find_post (ingest_scrape_ne
        (ingest_scrape_ne ⟨[], [], [], 0⟩ 1 ⟨"pr", "LIKE", "n", "h", "post", 2⟩
          [⟨"pr", "LOVE", "n", "h", "post", 2⟩])
        2 ⟨"pr", "LIKE", "n", "h", "post", 2⟩
        [⟨"pr", "LOVE", "n", "h", "post", 2⟩]) "post" = some ⟨"post", some 2, some 2, 2⟩ :=
  ⟨(ingest_scrape_idempotent ⟨[], [], [], 0⟩ 1 2 ⟨"pr", "LIKE", "n", "h", "post", 2⟩
      [⟨"pr", "LOVE", "n", "h", "post", 2⟩]).1,
   (ingest_scrape_idempotent ⟨[], [], [], 0⟩ 1 2 ⟨"pr", "LIKE", "n", "h", "post", 2⟩
      [⟨"pr", "LOVE", "n", "h", "post", 2⟩]).2.2 "pr" "post",
   by decide,
   (ingest_scrape_idempotent ⟨[], [], [], 0⟩ 1 2 ⟨"pr", "LIKE", "n", "h", "post", 2⟩
      [⟨"pr", "LOVE", "n", "h", "post", 2⟩]).2.1 ⟨"post", some 1, some 1, 2⟩ (by decide)⟩

/-! ## Atomicity of ingestion (`include/utils.py`, `ingest_scrape`, lines 238–252):
every statement runs inside one transaction; `conn.commit()` appears once, at
the very end, and the `except` branch calls `conn.rollback()`.  Failures are
injected at each `cursor.execute` site. -/

/-- The per-reaction insert loop of `ingest_scrape` with a failure oracle:
`failEng i = true` means the i-th engager INSERT raises. -/
def eng_loop (sid : Nat) (purl : String) (failEng : Nat → Bool) :
    Nat → Store → List Reaction → Except Unit Store
  | _, d, [] => Except.ok d
  | i, d, r :: t =>
    if failEng i then Except.error ()
    else eng_loop sid purl failEng (i + 1) (insert_engager sid purl d r) t

/-- The transaction body of `ingest_scrape` with failure injection at the post
upsert, the scrape-event insert, and each engager insert.  An empty result set
raises (`df.iloc[0]`). -/
def ingest_scrape_tx (db : Store) (ran_at : Int) (rows : List Reaction)
    (failPost failScrape : Bool) (failEng : Nat → Bool) : Except Unit Store :=
  match rows with
  | [] => Except.error ()
  | r0 :: rest =>
    if failPost then Except.error ()
    else
      let db1 := upsert_post db r0.metadata_post_url ran_at r0.metadata_total_reactions
      if failScrape then Except.error ()
      else
        let p := insert_scrape_event db1 r0.metadata_post_url ran_at
          r0.metadata_total_reactions
        eng_loop p.2 r0.metadata_post_url failEng 0 p.1 (r0 :: rest)

/-- The durable database state after running the transaction: the final
`conn.commit()` on success, `conn.rollback()` in the `except` branch. -/
def ingest_scrape_durable (db : Store) (ran_at : Int) (rows : List Reaction)
    (failPost failScrape : Bool) (failEng : Nat → Bool) : Store :=
  match ingest_scrape_tx db ran_at rows failPost failScrape failEng with
  | Except.ok s => s
  | Except.error _ => db

theorem eng_loop_no_fail (sid : Nat) (purl : String) (rows : List Reaction)
    (i : Nat) (d : Store) :
    eng_loop sid purl (fun _ => false) i d rows =
      Except.ok (rows.foldl (insert_engager sid purl) d) := by
  induction rows generalizing i d with
  | nil => rfl
  | cons r t ih =>
    show eng_loop sid purl (fun _ => false) i d (r :: t) = _
    rw [List.foldl_cons]
    unfold eng_loop
    exact ih (i + 1) (insert_engager sid purl d r)

/-- C7: ingestion of one post's scrape result is atomic: if any injected step
fails, the durable (committed) state equals the initial state — every post,
scrape-event and engager effect is rolled back — and with no failure the
transaction commits exactly the full ingestion result. -/
theorem ingest_scrape_atomic (db : Store) (t : Int) (rows : List Reaction)
    (failPost failScrape : Bool) (failEng : Nat → Bool) (r0 : Reaction)
    (rest : List Reaction) :
    (ingest_scrape_tx db t rows failPost failScrape failEng = Except.error () →
      ingest_scrape_durable db t rows failPost failScrape failEng = db) ∧
    ingest_scrape_tx db t (r0 :: rest) false false (fun _ => false) =
      Except.ok (ingest_scrape_ne db t r0 rest) := by
  constructor
  · intro h
    unfold ingest_scrape_durable
    rw [h]
  · show ingest_scrape_tx db t (r0 :: rest) false false (fun _ => false) = _
    unfold ingest_scrape_tx
    simp only [Bool.false_eq_true, if_false]
    rw [eng_loop_no_fail]
    rfl

/-- C7 witness: with a failure injected at the scrape-event insert, the
durable state after ingesting one concrete reaction equals the initial
(empty) store. -/
theorem ingest_scrape_atomic_witness :
    ingest_scrape_durable ⟨[], [], [], 0⟩ 3 [⟨"pr", "LIKE", "n", "h", "post", 1⟩]
      false true (fun _ => false) = ⟨[], [], [], 0⟩ :=
  (ingest_scrape_atomic ⟨[], [], [], 0⟩ 3 [⟨"pr", "LIKE", "n", "h", "post", 1⟩]
      false true (fun _ => false) ⟨"pr", "LIKE", "n", "h", "post", 1⟩ []).1 (by rfl)

/-! ## Company/title enrichment
(`include/utils.py` `scrape_company` lines 635–686,
`include/enrich_companies.py` `enrich_and_update_engagers` lines 92–113,
`include/enrich_hubspot_contacts.py` `enrich_company_and_title` lines 132–184). -/

/-- One entry of an Apify profile's `experience` list. -/
structure Experience where
  is_current : Bool
  title : Option String
  company : Option String
  deriving DecidableEq, Repr

/-- The `basic_info` object of an Apify profile result. -/
structure BasicInfo where
  current_company : Option String
  deriving DecidableEq, Repr

/-- One Apify profile item, restricted to the fields `scrape_company` reads. -/
structure ApifyProfile where
  basic_info : BasicInfo
  experience : List Experience
  deriving DecidableEq, Repr

/-- The `{company, title}` part of `scrape_company`'s return value. -/
structure CompanyTitle where
  company : Option String
  title : Option String
  deriving DecidableEq, Repr

/-- `scrape_company` (utils.py): empty result → both fields `None`; otherwise
company from `basic_info.current_company`, title from the first current job
(or the first experience entry), with the company falling back to that job's
company when `basic_info` gave nothing truthy. -/
def scrape_company (items : List ApifyProfile) : CompanyTitle :=
  match items with
  | [] => ⟨none, none⟩
  | profile :: _ =>
    let company0 := profile.basic_info.current_company
    match profile.experience with
    | [] => ⟨company0, none⟩
    | e0 :: es =>
      match (e0 :: es).filter (·.is_current) with
      | [] => ⟨if isFilled company0 then company0 else e0.company, e0.title⟩
      | cj :: _ => ⟨if isFilled company0 then company0 else cj.company, cj.title⟩

/-- The `company`/`title` columns of one `linkedin_engagers` row. -/
structure EngagerRec where
  company : Option String
  title : Option String
  deriving DecidableEq, Repr

/-- The per-row write of `enrich_and_update_engagers` (enrich_companies.py):
`UPDATE linkedin_engagers SET company = %s, title = %s WHERE id = %s` with the
values returned by `scrape_company` — unconditionally, with no non-empty or
differs guard. -/
def enrich_companies_update_row (e : EngagerRec) (r : CompanyTitle) : EngagerRec :=
  { e with company := r.company, title := r.title }

/-- The remote HubSpot view of one contact's syncable fields. -/
structure HsContact where
  company : Option String
  jobtitle : Option String
  deriving DecidableEq, Repr

/-- Modelled from the spec: `hubspot_update_contact` and
`hubspot_update_contact_fields` are called from `sql_hs.py` /
`enrich_hubspot_contacts.py` but their definitions are not in the source tree.
Per the spec's CRM collaborator interface ("update takes a contact id plus a
partial property map"), an update writes exactly the provided fields and
leaves the rest of the remote record unchanged. -/
def hubspot_update_apply (c : HsContact) (company jobtitle : Option String) : HsContact :=
  { company := match company with | some v => some v | none => c.company,
    jobtitle := match jobtitle with | some v => some v | none => c.jobtitle }

/-- The per-field diff of `sql_hs.py` `main` (lines 129–148): a field enters
`update_fields` iff the local value is truthy (`pd.notnull(x) and x`) and
differs from the remote value. -/
def sql_hs_field_update (localv remotev : Option String) : Option String :=
  if isFilled localv && !(localv == remotev) then localv else none

/-- One iteration of the update loop in `sql_hs.py` `main`: build
`update_fields` from the local company/title and call
`hubspot_update_contact` only when some field qualifies. -/
def sql_hs_sync_contact (c : HsContact) (local_company local_title : Option String) :
    HsContact :=
  let uc := sql_hs_field_update local_company c.company
  let ut := sql_hs_field_update local_title c.jobtitle
  if uc.isSome || ut.isSome then hubspot_update_apply c uc ut else c

/-- One iteration of `enrich_company_and_title`
(enrich_hubspot_contacts.py, lines 167–181): fields scraped by
`scrape_company` are pushed only when truthy and different from the stored
HubSpot value. -/
def enrich_company_and_title_row (c : HsContact) (r : CompanyTitle) : HsContact :=
  let uc := if isFilled r.company && !(r.company == c.company) then r.company else none
  let ut := if isFilled r.title && !(r.title == c.jobtitle) then r.title else none
  if uc.isSome || ut.isSome then hubspot_update_apply c uc ut else c

theorem isFilled_isSome {v : Option String} (h : isFilled v = true) : v.isSome = true := by
  cases v
  · cases h
  · rfl

theorem filled_exists {v : Option String} (h : isFilled v = true) : ∃ s, v = some s := by
  cases v
  · simp [isFilled] at h
  · exact ⟨_, rfl⟩

theorem sql_hs_sync_contact_company (c : HsContact) (lc lt : Option String) :
    (sql_hs_sync_contact c lc lt).company =
      (if isFilled lc && !(lc == c.company) then lc else c.company) := by
  cases ha : (isFilled lc && !(lc == c.company)) with
  | true =>
    obtain ⟨s, rfl⟩ := filled_exists (Bool.and_eq_true .. ▸ ha).1
    simp [sql_hs_sync_contact, sql_hs_field_update, hubspot_update_apply, ha]
  | false =>
    cases hb : (isFilled lt && !(lt == c.jobtitle)) with
    | true =>
      obtain ⟨s, rfl⟩ := filled_exists (Bool.and_eq_true .. ▸ hb).1
      simp [sql_hs_sync_contact, sql_hs_field_update, hubspot_update_apply, ha, hb]
    | false =>
      simp [sql_hs_sync_contact, sql_hs_field_update, hubspot_update_apply, ha, hb]

theorem sql_hs_sync_contact_jobtitle (c : HsContact) (lc lt : Option String) :
    (sql_hs_sync_contact c lc lt).jobtitle =
      (if isFilled lt && !(lt == c.jobtitle) then lt else c.jobtitle) := by
  cases hb : (isFilled lt && !(lt == c.jobtitle)) with
  | true =>
    obtain ⟨s, rfl⟩ := filled_exists (Bool.and_eq_true .. ▸ hb).1
    simp [sql_hs_sync_contact, sql_hs_field_update, hubspot_update_apply, hb]
  | false =>
    cases ha : (isFilled lc && !(lc == c.company)) with
    | true =>
      obtain ⟨s, rfl⟩ := filled_exists (Bool.and_eq_true .. ▸ ha).1
      simp [sql_hs_sync_contact, sql_hs_field_update, hubspot_update_apply, ha, hb]
    | false =>
      simp [sql_hs_sync_contact, sql_hs_field_update, hubspot_update_apply, ha, hb]

theorem sql_hs_field_update_isSome (lv rv : Option String) :
    (sql_hs_field_update lv rv).isSome = (isFilled lv && !(lv == rv)) := by
  cases h : (isFilled lv && !(lv == rv)) with
  | true =>
    obtain ⟨s, rfl⟩ := filled_exists (Bool.and_eq_true .. ▸ h).1
    simp [sql_hs_field_update, h]
  | false => simp [sql_hs_field_update, h]

theorem enrich_ct_row_company (c : HsContact) (r : CompanyTitle) :
    (enrich_company_and_title_row c r).company =
      (if isFilled r.company && !(r.company == c.company) then r.company else c.company) := by
  obtain ⟨rc, rt⟩ := r
  cases ha : (isFilled rc && !(rc == c.company)) with
  | true =>
    obtain ⟨s, rfl⟩ := filled_exists (Bool.and_eq_true .. ▸ ha).1
    simp [enrich_company_and_title_row, hubspot_update_apply, ha]
  | false =>
    cases hb : (isFilled rt && !(rt == c.jobtitle)) with
    | true =>
      obtain ⟨s, rfl⟩ := filled_exists (Bool.and_eq_true .. ▸ hb).1
      simp [enrich_company_and_title_row, hubspot_update_apply, ha, hb]
    | false =>
      simp [enrich_company_and_title_row, hubspot_update_apply, ha, hb]

theorem enrich_ct_row_jobtitle (c : HsContact) (r : CompanyTitle) :
    (enrich_company_and_title_row c r).jobtitle =
      (if isFilled r.title && !(r.title == c.jobtitle) then r.title else c.jobtitle) := by
  obtain ⟨rc, rt⟩ := r
  cases hb : (isFilled rt && !(rt == c.jobtitle)) with
  | true =>
    obtain ⟨s, rfl⟩ := filled_exists (Bool.and_eq_true .. ▸ hb).1
    simp [enrich_company_and_title_row, hubspot_update_apply, hb]
  | false =>
    cases ha : (isFilled rc && !(rc == c.company)) with
    | true =>
      obtain ⟨s, rfl⟩ := filled_exists (Bool.and_eq_true .. ▸ ha).1
      simp [enrich_company_and_title_row, hubspot_update_apply, ha, hb]
    | false =>
      simp [enrich_company_and_title_row, hubspot_update_apply, ha, hb]

/-- C1 counterexample: an engager stored with `company = "Acme"` is enriched
while the profile scrape returns no items, so `scrape_company` yields
`(None, None)`; `enrich_and_update_engagers` then writes those values
unconditionally and the stored company is no longer `"Acme"` — the claimed
preservation fails. -/
theorem enrich_regress_counterexample :
    isFilled (some "Acme") = true ∧
    scrape_company [] = ⟨none, none⟩ ∧
    (enrich_companies_update_row ⟨some "Acme", some "CEO"⟩ (scrape_company [])).company ≠
      some "Acme" := by
  refine ⟨by decide, rfl, ?_⟩
  decide

/-- C1 (amended): the local-store pass (`enrich_and_update_engagers` in
`enrich_companies.py`) writes the returned company and title unconditionally —
the stored fields after the pass equal the returned values, empty or not — so
an empty returned field does overwrite a non-empty stored one there; the
guarded write (a returned field is written only when it is non-empty and
differs from the stored value, so an empty return preserves the stored value)
holds in the HubSpot contact pass `enrich_company_and_title`. -/
theorem enrichment_write_behavior (e : EngagerRec) (r : CompanyTitle) (c : HsContact)
    (r2 : CompanyTitle) :
    (enrich_companies_update_row e r).company = r.company ∧
    (enrich_companies_update_row e r).title = r.title ∧
    (enrich_company_and_title_row c r2).company =
      (if isFilled r2.company && !(r2.company == c.company) then r2.company else c.company) ∧
    (isFilled r2.company = false →
      (enrich_company_and_title_row c r2).company = c.company) ∧
    (isFilled r2.title = false →
      (enrich_company_and_title_row c r2).jobtitle = c.jobtitle) := by
  refine ⟨rfl, rfl, enrich_ct_row_company c r2, ?_, ?_⟩
  · intro h
    rw [enrich_ct_row_company c r2, if_neg]
    rw [h]
    exact Bool.false_ne_true
  · intro h
    rw [enrich_ct_row_jobtitle c r2, if_neg]
    rw [h]
    exact Bool.false_ne_true

/-- C1 witness: a HubSpot contact with company `"Acme"` keeps it when the
scrape returns `(None, None)`, while the local pass overwrites it with `None`. -/
theorem enrichment_write_behavior_witness :
    isFilled (scrape_company []).company = false ∧
    (enrich_company_and_title_row ⟨some "Acme", some "CEO"⟩ (scrape_company [])).company =
      some "Acme" ∧
    (enrich_companies_update_row ⟨some "Acme", some "CEO"⟩ (scrape_company [])).company =
      (scrape_company []).company :=
  ⟨rfl,
   (enrichment_write_behavior ⟨some "Acme", some "CEO"⟩ (scrape_company [])
      ⟨some "Acme", some "CEO"⟩ (scrape_company [])).2.2.2.1 rfl,
   (enrichment_write_behavior ⟨some "Acme", some "CEO"⟩ (scrape_company [])
      ⟨some "Acme", some "CEO"⟩ (scrape_company [])).1⟩

/-- C3: for a contact matched on both sides, each syncable field (company,
job title) is selected for update exactly when the local value is non-empty
and differs from the remote value; applying the update changes exactly the
qualifying fields, so an empty or equal local value leaves the remote value
unchanged — in both the `sql_hs.py` update loop and the
`enrich_company_and_title` pass. -/
theorem crm_update_contract (c : HsContact) (lc lt : Option String) (r : CompanyTitle) :
    (sql_hs_field_update lc c.company).isSome = (isFilled lc && !(lc == c.company)) ∧
    (sql_hs_field_update lt c.jobtitle).isSome = (isFilled lt && !(lt == c.jobtitle)) ∧
    (sql_hs_sync_contact c lc lt).company =
      (if isFilled lc && !(lc == c.company) then lc else c.company) ∧
    (sql_hs_sync_contact c lc lt).jobtitle =
      (if isFilled lt && !(lt == c.jobtitle) then lt else c.jobtitle) ∧
    (enrich_company_and_title_row c r).company =
      (if isFilled r.company && !(r.company == c.company) then r.company else c.company) ∧
    (enrich_company_and_title_row c r).jobtitle =
      (if isFilled r.title && !(r.title == c.jobtitle) then r.title else c.jobtitle) :=
  ⟨sql_hs_field_update_isSome lc c.company,
   sql_hs_field_update_isSome lt c.jobtitle,
   sql_hs_sync_contact_company c lc lt,
   sql_hs_sync_contact_jobtitle c lc lt,
   enrich_ct_row_company c r,
   enrich_ct_row_jobtitle c r⟩

/-! ## Audience classification
(`include/enrich_engagers.py` `classify_audience_with_openai` lines 58–156;
byte-identical copy in `include/enrich_hubspot_contacts.py` lines 32–130). -/

/-- The fixed closed category set (`valid_audiences` in the source). -/
def valid_audiences : List String :=
  ["Venture Capital Related", "Venture Capital Backed Startup", "Marketing Agency", "Other"]

/-- The classifier call's observable outcome: any exception (API error,
`json.loads` failure on a malformed response, …) caught by the `try` block,
or a parsed JSON object, modelled as its string-valued fields. -/
inductive ClassifierOutcome where
  | apiError : ClassifierOutcome
  | json : List (String × String) → ClassifierOutcome
  deriving DecidableEq, Repr

/-- `classify_audience_with_openai`: on exception return `("Other", "Other")`;
otherwise read `audience` and `position` with default `"Other"` and coerce
both to `"Other"` whenever the audience is outside `valid_audiences`. -/
def classify_audience_with_openai : ClassifierOutcome → String × String
  | ClassifierOutcome.apiError => ("Other", "Other")
  | ClassifierOutcome.json fields =>
    let audience := (fields.lookup "audience").getD "Other"
    let position := (fields.lookup "position").getD "Other"
    if audience ∈ valid_audiences then (audience, position)
    else ("Other", "Other")

/-- C8: the applied audience is always a member of the fixed closed category
set; a response whose audience lies outside that set yields exactly the
fallback pair `("Other", "Other")` — never the raw value — and a classifier
error or malformed response also yields the fallback pair. -/
theorem classification_fallback (o : ClassifierOutcome) (fields : List (String × String)) :
    (classify_audience_with_openai o).1 ∈ valid_audiences ∧
    (((fields.lookup "audience").getD "Other") ∉ valid_audiences →
      classify_audience_with_openai (ClassifierOutcome.json fields) = ("Other", "Other")) ∧
    classify_audience_with_openai ClassifierOutcome.apiError = ("Other", "Other") := by
  refine ⟨?_, ?_, rfl⟩
  · match o with
    | ClassifierOutcome.apiError => simp [classify_audience_with_openai, valid_audiences]
    | ClassifierOutcome.json fs =>
      show ((if ((fs.lookup "audience").getD "Other") ∈ valid_audiences then
          (((fs.lookup "audience").getD "Other"), ((fs.lookup "position").getD "Other"))
        else ("Other", "Other")) : String × String).1 ∈ valid_audiences
      by_cases h : ((fs.lookup "audience").getD "Other") ∈ valid_audiences
      · rw [if_pos h]
        exact h
      · rw [if_neg h]
        simp [valid_audiences]
  · intro h
    show (if ((fields.lookup "audience").getD "Other") ∈ valid_audiences then
        (((fields.lookup "audience").getD "Other"), ((fields.lookup "position").getD "Other"))
      else ("Other", "Other")) = ("Other", "Other")
    rw [if_neg h]

/-- C8 witness: a parsed response with audience `"VC"` (outside the set)
is coerced to the fallback pair. -/
theorem classification_fallback_witness :
    classify_audience_with_openai (ClassifierOutcome.json [("audience", "VC"),
      ("position", "Partner")]) = ("Other", "Other") :=
  (classification_fallback (ClassifierOutcome.json [("audience", "VC"), ("position", "Partner")])
    [("audience", "VC"), ("position", "Partner")]).2.1 (by decide)

/-! ## CRM list pagination
(`include/utils.py` `hubspot_fetch_list_contacts`, lines 254–317). -/

/-- One response of the paged HubSpot list endpoint: HTTP status, the batch of
contacts (each carrying a nullable `hs_linkedin_url`), the `has-more` flag and
the `vid-offset` cursor. -/
structure HsPage where
  status : Nat
  contacts : List (Option String)
  has_more : Bool
  vid_offset : Option Nat
  deriving DecidableEq, Repr

/-- The fetch loop of `hubspot_fetch_list_contacts`: break on a non-200
response (keeping the contacts gathered so far), extend with the batch, and
continue exactly when `vid-offset` is present and `has-more` is true. -/
def hubspot_fetch_list_contacts : List HsPage → List (Option String)
  | [] => []
  | p :: rest =>
    if p.status ≠ 200 then []
    else p.contacts ++
      (if p.has_more && p.vid_offset.isSome then hubspot_fetch_list_contacts rest else [])

/-- Well-formed pagination: every response is 200, every page but the last
advertises a next page (`has-more` with an offset), and the last does not. -/
def well_paged : List HsPage → Bool
  | [] => true
  | p :: rest =>
    (p.status == 200) &&
      (match rest with
       | [] => !(p.has_more && p.vid_offset.isSome)
       | _ :: _ => p.has_more && p.vid_offset.isSome && well_paged rest)

/-! ## New-contact classification during CRM reconciliation
(`include/sql_hs.py` `main` lines 72–86;
`include/sync_sql_to_hubspot.py` `main` lines 63–70). -/

/-- `sql_hs.py`: a local URL counts as new iff it is absent — by raw string
equality — from the remote URL set (`dropna` on the remote column). -/
def sql_hs_new_contact (url : String) (remote : List (Option String)) : Bool :=
  !(decide (url ∈ remote.filterMap id))

/-- `sql_hs.py`: a new local contact is pushed when its URL also passes the
`/in/` person-profile filter. -/
def sql_hs_upload_candidate (url : String) (remote : List (Option String)) : Bool :=
  sql_hs_new_contact url remote && containsInSegment url

/-- `sync_sql_to_hubspot.py` (same code in `enrich_hubspot_contacts.py`): both
sides are normalised with `str.strip().str.lower()` before the membership
test. -/
def sync_new_contact (url : String) (remote : List (Option String)) : Bool :=
  !(decide (normalize_url url ∈ (remote.filterMap id).map normalize_url))

/-- `sync_sql_to_hubspot.py`: push candidates are normalised-new URLs passing
the `/in/` filter. -/
def sync_upload_candidate (url : String) (remote : List (Option String)) : Bool :=
  sync_new_contact url remote && containsInSegment url

/-- C2 counterexample: local `https://linkedin.com/in/Jane` against remote
`https://linkedin.com/in/jane ` (case difference, trailing space).  In the
`sql_hs.py` reconciliation the comparison is raw, so the contact is classified
as new and passes the push filter — not, as claimed, recognised as already
existing. -/
theorem crm_dedup_counterexample :
    sql_hs_upload_candidate "https://linkedin.com/in/Jane"
      [some "https://linkedin.com/in/jane "] = true := by
  decide

/-- C2 (amended): in `sync_sql_to_hubspot.py` (and the identical logic in
`enrich_hubspot_contacts.py`) both identity keys are normalised (trim +
case-fold) before comparison, so a local contact whose URL matches a remote
one up to case and surrounding whitespace is classified as already existing
and not pushed; in `sql_hs.py` the comparison is raw string equality, and such
a contact is classified as new. -/
theorem crm_dedup_normalized (url r : String) (remote : List (Option String))
    (hr : some r ∈ remote) (hn : normalize_url r = normalize_url url) :
    sync_new_contact url remote = false ∧
    sync_upload_candidate url remote = false := by
  have hm : normalize_url url ∈ (remote.filterMap id).map normalize_url := by
    rw [List.mem_map]
    refine ⟨r, ?_, hn⟩
    rw [List.mem_filterMap]
    exact ⟨some r, hr, rfl⟩
  constructor
  · unfold sync_new_contact
    rw [decide_eq_true hm]
    rfl
  · unfold sync_upload_candidate sync_new_contact
    rw [decide_eq_true hm]
    rfl

/-- C2 witness: the Jane example — under normalisation the local URL is
recognised as existing and is not a push candidate. -/
theorem crm_dedup_normalized_witness :
    some "https://linkedin.com/in/jane " ∈ [some "https://linkedin.com/in/jane "] ∧
    normalize_url "https://linkedin.com/in/jane " =
      normalize_url "https://linkedin.com/in/Jane" ∧
    sync_new_contact "https://linkedin.com/in/Jane"
      [some "https://linkedin.com/in/jane "] = false :=
  ⟨List.mem_singleton.mpr rfl, by decide,
   (crm_dedup_normalized "https://linkedin.com/in/Jane" "https://linkedin.com/in/jane "
      [some "https://linkedin.com/in/jane "] (List.mem_singleton.mpr rfl) (by decide)).1⟩

/-- Under well-formed pagination, the fetch loop concatenates every page. -/
theorem hubspot_fetch_eq_flatten (pages : List HsPage) (h : well_paged pages = true) :
    hubspot_fetch_list_contacts pages = (pages.map (·.contacts)).flatten := by
  induction pages with
  | nil => rfl
  | cons p rest ih =>
    cases rest with
    | nil =>
      unfold well_paged at h
      rw [Bool.and_eq_true] at h
      have hstatus : p.status = 200 := by simpa using h.1
      have h3 : (!(p.has_more && p.vid_offset.isSome)) = true := h.2
      have hm : (p.has_more && p.vid_offset.isSome) = false := by
        rwa [Bool.not_eq_true'] at h3
      unfold hubspot_fetch_list_contacts
      rw [if_neg (by simp [hstatus]), if_neg (by simp [hm])]
      simp
    | cons q rest' =>
      unfold well_paged at h
      rw [Bool.and_eq_true] at h
      have hstatus : p.status = 200 := by simpa using h.1
      have h2 := h.2
      rw [Bool.and_eq_true, Bool.and_eq_true] at h2
      have hm : (p.has_more && p.vid_offset.isSome) = true := by
        rw [Bool.and_eq_true]
        exact h2.1
      unfold hubspot_fetch_list_contacts
      rw [if_neg (by simp [hstatus]), if_pos hm]
      simp only [List.map_cons, List.flatten_cons]
      rw [ih h2.2]
      simp

/-- C9: under well-formed pagination the fetch loop returns the concatenation
of every page's contacts — the set used for deduplication contains all remote
contacts — so a URL present on any page (later pages included) is never
classified as a new contact by the reconciliation membership test. -/
theorem fetch_all_pages (pages : List HsPage) (h : well_paged pages = true) :
    hubspot_fetch_list_contacts pages = (pages.map (·.contacts)).flatten ∧
    (∀ u : String, some u ∈ (pages.map (·.contacts)).flatten →
      sql_hs_new_contact u (hubspot_fetch_list_contacts pages) = false) := by
  refine ⟨hubspot_fetch_eq_flatten pages h, ?_⟩
  intro u hu
  rw [hubspot_fetch_eq_flatten pages h]
  unfold sql_hs_new_contact
  have hmem : u ∈ ((pages.map (·.contacts)).flatten).filterMap id := by
    rw [List.mem_filterMap]
    exact ⟨some u, hu, rfl⟩
  rw [decide_eq_true hmem]
  rfl

/-- C9 witness: a two-page remote list is fetched in full and a contact on the
second page is not classified as new. -/
theorem fetch_all_pages_witness :
    well_paged [⟨200, [some "a"], true, some 1⟩, ⟨200, [some "b"], false, none⟩] = true ∧
    hubspot_fetch_list_contacts
        [⟨200, [some "a"], true, some 1⟩, ⟨200, [some "b"], false, none⟩] =
      [some "a", some "b"] ∧
    sql_hs_new_contact "b" (hubspot_fetch_list_contacts
      [⟨200, [some "a"], true, some 1⟩, ⟨200, [some "b"], false, none⟩]) = false :=
  ⟨by decide,
   (fetch_all_pages [⟨200, [some "a"], true, some 1⟩, ⟨200, [some "b"], false, none⟩]
      (by decide)).1,
   (fetch_all_pages [⟨200, [some "a"], true, some 1⟩, ⟨200, [some "b"], false, none⟩]
      (by decide)).2 "b" (by decide)⟩

/-! ## Audience-classification batch cap
(`include/enrich_hubspot_contacts.py`, `enrich_audience_classification`,
lines 186–206). -/

/-- One HubSpot contact row with the properties the audience selection reads. -/
structure HsListRow where
  company : Option String
  jobtitle : Option String
  engager_audience : Option String
  engager_bucketed_position : Option String
  deriving DecidableEq, Repr

/-- `needs_audience_enrichment` (enrich_hubspot_contacts.py): company AND
job title present, audience OR bucketed position missing. -/
def needs_audience_enrichment (r : HsListRow) : Bool :=
  isFilled r.company && isFilled r.jobtitle &&
    (!isFilled r.engager_audience || !isFilled r.engager_bucketed_position)

/-- The batch selection of `enrich_audience_classification`: filter the rows
needing classification; `if len(...) > 1000: ... .head(50)`, else all of them. -/
def enrich_audience_selection (rows : List HsListRow) : List HsListRow :=
  let needing := rows.filter needs_audience_enrichment
  if needing.length > 1000 then needing.take 50 else needing

/-- C10: if at most 1000 contacts need audience classification, the run
processes exactly all of them; if more than 1000 do, it processes exactly the
first 50 and skips the rest. -/
theorem audience_batch_cap (rows : List HsListRow) :
    ((rows.filter needs_audience_enrichment).length ≤ 1000 →
      enrich_audience_selection rows = rows.filter needs_audience_enrichment) ∧
    ((rows.filter needs_audience_enrichment).length > 1000 →
      enrich_audience_selection rows = (rows.filter needs_audience_enrichment).take 50) := by
  constructor
  · intro h
    unfold enrich_audience_selection
    rw [if_neg (by omega)]
  · intro h
    unfold enrich_audience_selection
    rw [if_pos h]

/-- C10 witness: a single contact needing classification is processed. -/
theorem audience_batch_cap_witness :
    ([(⟨some "Acme", some "CEO", none, none⟩ : HsListRow)].filter
        needs_audience_enrichment).length ≤ 1000 ∧
    enrich_audience_selection [⟨some "Acme", some "CEO", none, none⟩] =
      [(⟨some "Acme", some "CEO", none, none⟩ : HsListRow)].filter
        needs_audience_enrichment :=
  ⟨by decide, (audience_batch_cap [⟨some "Acme", some "CEO", none, none⟩]).1 (by decide)⟩
